import Mathlib

/-!
Verification of the edge request interceptor in src/_worker.js
(Cloudflare Pages worker: AffiliateWP cross-domain tracking + A/B testing).

The JavaScript is shallowly embedded: strings are Lean strings, JS objects
become structures, the two network collaborators (the static-asset store and
the attribution service) are oracles passed as parameters, Math.random is an
explicit rational parameter u with 0 <= u < 1, and a thrown exception is
modelled as Option.none.
-/

/-! ## JavaScript string primitives -/

/-- Whitespace characters removed by the JS String.prototype.trim
(tab, LF, VT, FF, CR, space, NBSP, LS, PS, ZWNBSP). -/
def isJsWhitespace (c : Char) : Bool :=
  c.toNat = 9 || c.toNat = 10 || c.toNat = 11 || c.toNat = 12 || c.toNat = 13 ||
  c.toNat = 32 || c.toNat = 160 || c.toNat = 8232 || c.toNat = 8233 || c.toNat = 65279

/-- Strip leading JS whitespace from a character list. -/
def trimLeftChars (l : List Char) : List Char := l.dropWhile isJsWhitespace

/-- JS String.prototype.trim on a character list. -/
def trimChars (l : List Char) : List Char :=
  ((l.dropWhile isJsWhitespace).reverse.dropWhile isJsWhitespace).reverse

/-- Helper for splitOnChar: JS String.prototype.split with a one-character
separator; acc holds the current piece reversed. -/
def splitOnCharAux (sep : Char) : List Char → List Char → List (List Char)
  | [], acc => [acc.reverse]
  | c :: rest, acc =>
      if c == sep then acc.reverse :: splitOnCharAux sep rest []
      else splitOnCharAux sep rest (c :: acc)

/-- JS String.prototype.split with a one-character separator.
As in JS, the empty string splits to one empty piece. -/
def splitOnChar (sep : Char) (l : List Char) : List (List Char) :=
  splitOnCharAux sep l []

/-- JS String.prototype.endsWith. -/
def strEndsWith (s pat : String) : Bool := pat.toList.isSuffixOf s.toList

/-- Helper for strContains: does pat occur starting at any position of l. -/
def containsAt (pat : List Char) : List Char → Bool
  | [] => pat.isEmpty
  | c :: rest => pat.isPrefixOf (c :: rest) || containsAt pat rest

/-- JS String.prototype.includes. -/
def strContains (s pat : String) : Bool := containsAt pat.toList s.toList

/-- JS String.prototype.startsWith. -/
def strStartsWith (s pat : String) : Bool := pat.toList.isPrefixOf s.toList

/-! ## decodeURIComponent

The ECMAScript Decode algorithm: '%' must be followed by two hex digits,
the resulting octets must form strictly valid UTF-8 (no overlong forms, no
surrogate code points, no truncated sequences), otherwise a URIError is
thrown.  Failure is modelled as none. -/

/-- Value of a hex digit, or none. -/
def hexVal (c : Char) : Option Nat :=
  if '0' ≤ c ∧ c ≤ '9' then some (c.toNat - 48)
  else if 'a' ≤ c ∧ c ≤ 'f' then some (c.toNat - 87)
  else if 'A' ≤ c ∧ c ≤ 'F' then some (c.toNat - 55)
  else none

/-- Token stream for percent-decoding: a literal character or a decoded octet. -/
inductive UriTok
  | lit (c : Char)
  | byte (b : Nat)
deriving DecidableEq

/-- Turn the input into literal characters and percent-decoded octets;
none when a '%' is not followed by two hex digits. -/
def uriTokenize : List Char → Option (List UriTok)
  | [] => some []
  | '%' :: c1 :: c2 :: rest =>
      match hexVal c1, hexVal c2 with
      | some h, some l => (uriTokenize rest).map (UriTok.byte (16 * h + l) :: ·)
      | _, _ => none
  | '%' :: _ => none
  | c :: rest => (uriTokenize rest).map (UriTok.lit c :: ·)

/-- Is b a UTF-8 continuation octet. -/
def utf8Cont (b : Nat) : Bool := 128 ≤ b && b ≤ 191

/-- Allowed second octet after a three-byte leader (excludes overlong forms
and surrogates, as the ECMAScript decoder does). -/
def utf8Second3 (b b1 : Nat) : Bool :=
  if b = 224 then 160 ≤ b1 && b1 ≤ 191
  else if b = 237 then 128 ≤ b1 && b1 ≤ 159
  else utf8Cont b1

/-- Allowed second octet after a four-byte leader. -/
def utf8Second4 (b b1 : Nat) : Bool :=
  if b = 240 then 144 ≤ b1 && b1 ≤ 191
  else if b = 244 then 128 ≤ b1 && b1 ≤ 143
  else utf8Cont b1

/-- Decode the token stream, reassembling strictly valid UTF-8 sequences from
consecutive octets; any invalid or truncated sequence is a URIError (none). -/
def utf8DecodeToks : List UriTok → Option (List Char)
  | [] => some []
  | .lit c :: rest => (utf8DecodeToks rest).map (c :: ·)
  | .byte b :: rest =>
      if b ≤ 127 then (utf8DecodeToks rest).map (Char.ofNat b :: ·)
      else if 194 ≤ b ∧ b ≤ 223 then
        match rest with
        | .byte b1 :: r =>
            if utf8Cont b1 then
              (utf8DecodeToks r).map (Char.ofNat ((b - 192) * 64 + (b1 - 128)) :: ·)
            else none
        | _ => none
      else if 224 ≤ b ∧ b ≤ 239 then
        match rest with
        | .byte b1 :: .byte b2 :: r =>
            if utf8Second3 b b1 && utf8Cont b2 then
              (utf8DecodeToks r).map
                (Char.ofNat ((b - 224) * 4096 + (b1 - 128) * 64 + (b2 - 128)) :: ·)
            else none
        | _ => none
      else if 240 ≤ b ∧ b ≤ 244 then
        match rest with
        | .byte b1 :: .byte b2 :: .byte b3 :: r =>
            if utf8Second4 b b1 && utf8Cont b2 && utf8Cont b3 then
              (utf8DecodeToks r).map
                (Char.ofNat
                  ((b - 240) * 262144 + (b1 - 128) * 4096 + (b2 - 128) * 64 + (b3 - 128)) :: ·)
            else none
        | _ => none
      else none

/-- JS decodeURIComponent; none models a thrown URIError. -/
def decodeURIComponent (s : String) : Option String :=
  (uriTokenize s.toList).bind (fun ts => (utf8DecodeToks ts).map String.mk)

/-! ## parseCookies (src/_worker.js lines 295-305)

function parseCookies(cookieStr) {
  const cookies = {};
  if (!cookieStr) return cookies;
  cookieStr.split(';').forEach(pair => {
    const [name, ...rest] = pair.trim().split('=');
    if (name) {
      cookies[name.trim()] = decodeURIComponent(rest.join('=').trim());
    }
  });
  return cookies;
}

The cookie object is a list of (name, value) pairs where a later assignment
to the same name overwrites; lookup is List.lookup on the most recent entry
first.  A thrown URIError escapes the forEach, so the result is none. -/

/-- Cookie jar: JS object as an association list, most recent entry first. -/
def CookieMap := List (String × String)

/-- JS object property assignment: overwrite any earlier entry. -/
def insertCookie (m : CookieMap) (k v : String) : CookieMap :=
  (k, v) :: List.filter (fun p => !(p.1 == k)) m

/-- Look a cookie up by name. -/
def lookupCookie (m : CookieMap) (k : String) : Option String := List.lookup k m

/-- Process one piece of the ';'-split header: outer none is a thrown
URIError, inner none means the entry is skipped (no name). -/
def parsePair (pair : List Char) : Option (Option (String × String)) :=
  match splitOnChar '=' (trimChars pair) with
  | [] => some none
  | nameCs :: rest =>
      if nameCs.isEmpty then some none
      else
        match decodeURIComponent (String.mk (trimChars (List.intercalate ['='] rest))) with
        | none => none
        | some v => some (some (String.mk (trimChars nameCs), v))

/-- Fold the pieces left to right, as forEach does. -/
def parsePairs : List (List Char) → CookieMap → Option CookieMap
  | [], m => some m
  | p :: rest, m =>
      match parsePair p with
      | none => none
      | some none => parsePairs rest m
      | some (some (k, v)) => parsePairs rest (insertCookie m k v)

/-- src/_worker.js parseCookies; none models a thrown URIError. -/
def parseCookies (s : String) : Option CookieMap :=
  if s == "" then some []
  else parsePairs (splitOnChar ';' s.toList) []

/-- The condition under which one ';'-piece is processed without throwing:
either it has no name (and is skipped) or its value percent-decodes. -/
def pairOk (p : List Char) : Bool :=
  match splitOnChar '=' (trimChars p) with
  | [] => true
  | nameCs :: rest =>
      nameCs.isEmpty ||
        (decodeURIComponent (String.mk (trimChars (List.intercalate ['='] rest)))).isSome

/-! ## A/B test configuration (src/_worker.js lines 43-55) -/

/-- One weighted variant: { name, path, weight }. -/
structure Variant where
  name : String
  path : String
  weight : Nat
deriving DecidableEq

/-- One experiment: { variants: [...] }. -/
structure TestConfig where
  variants : List Variant
deriving DecidableEq

/-- The AB_TESTS table keyed by normalized URL path.  resolveABTest is
parameterized by such a table; the deployed constant is abTests below. -/
def TestTable := List (String × TestConfig)

/-- The deployed AB_TESTS constant (lines 43-50). -/
def abTests : TestTable :=
  [("/beginners-course/start/",
    ⟨[⟨"control", "/beginners-course/start/", 50⟩,
      ⟨"variant-b", "/beginners-course/start/variant-b", 50⟩]⟩)]

/-- The deployed experiment's variant list. -/
def startVariants : List Variant :=
  [⟨"control", "/beginners-course/start/", 50⟩,
   ⟨"variant-b", "/beginners-course/start/variant-b", 50⟩]

/-- AB_COOKIE_PREFIX (line 53); renamed, source name kept in this comment. -/
def abCookiePfx : String := "ab_"

/-- AB_COOKIE_MAX_AGE = 30 * 86400 (line 55). -/
def abCookieMaxAge : Int := 30 * 86400

/-- An assignment decision { testKey, variant, isNew }.  The source can
produce { variant: undefined } (empty variant list), hence Option. -/
structure Assignment where
  testKey : String
  variantOpt : Option Variant
  isNew : Bool
deriving DecidableEq

/-! ## resolveABTest (src/_worker.js lines 183-220) -/

/-- Path normalization (lines 185-188): append a trailing slash when the
path has none and contains no dot. -/
def normalizeTestPath (p : String) : String :=
  if !strEndsWith p "/" && !(p.toList.contains '.') then p ++ "/" else p

/-- Key derivation (line 195): testPath.replace with a regex that strips one
leading and one trailing slash, then all slashes become hyphens; an empty
result falls back to the string home. -/
def deriveTestKey (tp : String) : String :=
  let l := tp.toList
  let l1 := if l.head? = some '/' then l.tail else l
  let l2 := if l1.getLast? = some '/' then l1.dropLast else l1
  let l3 := l2.map (fun c => if c = '/' then '-' else c)
  if l3.isEmpty then "home" else String.mk l3

/-- The weighted-draw loop (lines 210-216): cumulative := acc, return the
first variant with rand < cumulative, else fall through. -/
def pickLoop : List Variant → ℚ → ℚ → Option Variant
  | [], _, _ => none
  | v :: rest, rand, acc =>
      if rand < acc + (v.weight : ℚ) then some v else pickLoop rest rand (acc + (v.weight : ℚ))

/-- Fresh weighted assignment (lines 209-219): run the loop, else fall back
to variants[variants.length - 1] (undefined, i.e. none, for an empty list;
note JS arr[-1] is undefined, matching List.get? at Nat 0 - 1 = 0 on []). -/
def pickVariant (vs : List Variant) (rand : ℚ) : Option Variant :=
  match pickLoop vs rand 0 with
  | some v => some v
  | none => vs.get? (vs.length - 1)

/-- Index-level version of the same loop, used to state where the draw lands. -/
def pickIdxLoop : List Variant → ℚ → ℚ → Nat → Option Nat
  | [], _, _, _ => none
  | v :: rest, rand, acc, k =>
      if rand < acc + (v.weight : ℚ) then some k
      else pickIdxLoop rest rand (acc + (v.weight : ℚ)) (k + 1)

/-- Index-level pickVariant. -/
def pickIdx (vs : List Variant) (rand : ℚ) : Option Nat :=
  match pickIdxLoop vs rand 0 0 with
  | some k => some k
  | none => if vs.isEmpty then none else some (vs.length - 1)

/-- Sum of the configured weights. -/
def sumOfWeights (vs : List Variant) : Nat := (vs.map Variant.weight).sum

/-- Cumulative weight of the first i variants. -/
def cumBefore (vs : List Variant) (i : Nat) : Nat := ((vs.take i).map Variant.weight).sum

/-- resolveABTest (lines 183-220).  u is the Math.random() draw in [0,1);
the source computes rand = u * 100 (line 209).  cookies is the parsed
cookie jar. -/
def resolveABTest (tests : TestTable) (pathname : String) (cookies : CookieMap)
    (u : ℚ) : Option Assignment :=
  let testPath := normalizeTestPath pathname
  match List.lookup testPath tests with
  | none => none
  | some testConfig =>
      let testKey := deriveTestKey testPath
      let cookieName := abCookiePfx ++ testKey
      let sticky : Option Variant :=
        match lookupCookie cookies cookieName with
        | none => none
        | some s =>
            if s == "" then none
            else List.find? (fun v => v.name == s) testConfig.variants
      match sticky with
      | some assigned => some ⟨testKey, some assigned, false⟩
      | none =>
          let rand := u * 100
          some ⟨testKey, pickVariant testConfig.variants rand, true⟩

/-- Modelled from the spec's words, for comparison with the source (claim C1):
draw a uniform value in [0, sum_of_weights) — here u * W with u in [0,1) —
walk the variant list accumulating weights, return the first variant whose
cumulative weight exceeds the draw. -/
def specFreshDraw (vs : List Variant) (u : ℚ) : Option Variant :=
  pickLoop vs (u * (sumOfWeights vs : ℚ)) 0

/-! ## Environment, encodeURIComponent, parseInt -/

/-- Worker environment variables; none models an unset variable. -/
structure Env where
  AFFWP_PARENT_URL : Option String
  AFFWP_PUBLIC_KEY : Option String
  AFFWP_TOKEN : Option String
  AFFWP_REF_VAR : Option String
  AFFWP_COOKIE_DAYS : Option String
  AFFWP_CREDIT_LAST : Option String
deriving DecidableEq

/-- JS (x || d) on an optional string: undefined and the empty string are
falsy and give the default. -/
def jsOr (o : Option String) (d : String) : String :=
  match o with
  | none => d
  | some s => if s == "" then d else s

/-- Truthiness of an optional JS string. -/
def truthyS (o : Option String) : Bool :=
  match o with
  | none => false
  | some s => !(s == "")

/-- UTF-8 octets of a character. -/
def utf8Bytes (c : Char) : List Nat :=
  let n := c.toNat
  if n ≤ 127 then [n]
  else if n ≤ 2047 then [192 + n / 64, 128 + n % 64]
  else if n ≤ 65535 then [224 + n / 4096, 128 + n / 64 % 64, 128 + n % 64]
  else [240 + n / 262144, 128 + n / 4096 % 64, 128 + n / 64 % 64, 128 + n % 64]

/-- Upper-case hex digit for a value below 16. -/
def hexDigit (n : Nat) : Char :=
  if n < 10 then Char.ofNat (48 + n) else Char.ofNat (55 + n)

/-- Characters encodeURIComponent leaves unescaped. -/
def uriUnreserved (c : Char) : Bool :=
  ('A' ≤ c && c ≤ 'Z') || ('a' ≤ c && c ≤ 'z') || ('0' ≤ c && c ≤ '9') ||
  c == '-' || c == '_' || c == '.' || c == '!' || c == '~' || c == '*' ||
  c == '\'' || c == '(' || c == ')'

/-- JS encodeURIComponent. -/
def encodeURIComponent (s : String) : String :=
  String.mk (s.toList.flatMap (fun c =>
    if uriUnreserved c then [c]
    else (utf8Bytes c).flatMap (fun b => ['%', hexDigit (b / 16), hexDigit (b % 16)])))

/-- Decimal value of a digit list. -/
def natOfDigits (l : List Char) : Nat :=
  l.foldl (fun acc c => 10 * acc + (c.toNat - 48)) 0

/-- JS parseInt(s, 10): skip leading whitespace, optional sign, longest
leading digit run; none models NaN. -/
def parseIntDec (s : String) : Option Int :=
  let l := trimLeftChars s.toList
  let signed : Int × List Char :=
    match l with
    | '-' :: r => (-1, r)
    | '+' :: r => (1, r)
    | _ => (1, l)
  let digits := signed.2.takeWhile (fun c => '0' ≤ c && c ≤ '9')
  if digits.isEmpty then none else some (signed.1 * (natOfDigits digits : Int))

/-! ## JSON values and the attribution client (lines 230-285) -/

/-- JSON values as produced by JSON.parse. -/
inductive Json
  | null
  | bool (b : Bool)
  | num (q : ℚ)
  | str (s : String)
  | arr (l : List Json)
  | obj (fields : List (String × Json))

/-- JS truthiness of a JSON value. -/
def jsonTruthy : Json → Bool
  | .null => false
  | .bool b => b
  | .num q => !(q == 0)
  | .str s => !(s == "")
  | .arr _ => true
  | .obj _ => true

/-- Property lookup on a parsed JSON object: with duplicate keys JSON.parse
keeps the last occurrence. -/
def lookupLast (fields : List (String × Json)) (k : String) : Option Json :=
  List.lookup k fields.reverse

mutual

/-- String coercion used by the visit-id template literal. -/
def jsToString : Json → String
  | .null => "null"
  | .bool true => "true"
  | .bool false => "false"
  | .num q =>
      -- integral values appear as plain decimals; the claims never inspect
      -- the formatting of a non-integral number
      if q.den = 1 then toString q.num else toString q
  | .str s => s
  | .arr l => String.intercalate "," (jsStrings l)
  | .obj _ => "[object Object]"

/-- String coercions of a list of JSON values (Array.prototype.join). -/
def jsStrings : List Json → List String
  | [] => []
  | j :: rest => jsToString j :: jsStrings rest

end

/-- The visit-id extraction data.visit_id || data.id || null (lines 272-273).
A property access on null throws, is caught, and yields null; property
access on any other non-object yields undefined, which is falsy. -/
def extractVisitId (j : Json) : Option Json :=
  match j with
  | .obj fields =>
      match lookupLast fields "visit_id" with
      | some v =>
          if jsonTruthy v then some v
          else
            match lookupLast fields "id" with
            | some w => if jsonTruthy w then some w else none
            | none => none
      | none =>
          match lookupLast fields "id" with
          | some w => if jsonTruthy w then some w else none
          | none => none
  | _ => none

/-- The attribution service response as observed by the worker: the HTTP
status and the JSON.parse result of the body text (none = unparseable). -/
structure SvcResp where
  status : Nat
  bodyJson : Option Json

/-- Response.ok: status in the 2xx range. -/
def respOk (r : SvcResp) : Bool := 200 ≤ r.status && r.status ≤ 299

/-- The parent URL of line 231, env.AFFWP_PARENT_URL defaulted to the empty
string with one trailing slash stripped by the replace call. -/
def parentUrlOf (env : Env) : String :=
  let s := jsOr env.AFFWP_PARENT_URL ""
  let l := s.toList
  if l.getLast? = some '/' then String.mk l.dropLast else s

/-- The guard of lines 235-238: all three credentials must be non-empty. -/
def svcConfigured (env : Env) : Bool :=
  !(parentUrlOf env == "") && !(jsOr env.AFFWP_PUBLIC_KEY "" == "") &&
    !(jsOr env.AFFWP_TOKEN "" == "")

/-- createAffiliateVisit (lines 230-285).  The oracle svc is the service
response; none covers transport failure (or any throw before the response
arrives).  Returns (whether the outbound call was made, visit id or null).
The request parameters (ip, landing url, campaign, referrer) only shape the
outbound URL, which the oracle abstracts. -/
def createAffiliateVisit (env : Env) (svc : Option SvcResp) : Bool × Option Json :=
  if !(svcConfigured env) then (false, none)
  else
    match svc with
    | none => (true, none)
    | some r =>
        if respOk r then
          match r.bodyJson with
          | some j => (true, extractVisitId j)
          | none => (true, none)
        else (true, none)

/-! ## The request orchestrator (fetch handler, lines 59-171) -/

/-- The inbound request: original URL pathname, decoded query parameters in
order, and the raw Cookie header (absent header = empty string, line 62). -/
structure Request where
  pathname : String
  query : List (String × String)
  cookieHeader : String

/-- A static-asset response: status, content-type header, body bytes. -/
structure PageResponse where
  status : Nat
  contentType : Option String
  body : String

/-- One Set-Cookie directive; all carry Path=/; SameSite=Lax, so only name,
value and Max-Age (none = NaN) are recorded. -/
structure SetCookie where
  name : String
  value : String
  maxAge : Option Int
deriving DecidableEq

/-- The final response as observed by the visitor, plus a trace of the
orchestrator's decisions: passthrough records the early return of line 99
(no cloning), tagged records the HTMLRewriter injection (testKey, variant),
attributionCalled records whether the outbound service call was made. -/
structure ServedResponse where
  fetchedPath : String
  status : Nat
  contentType : Option String
  body : String
  setCookies : List SetCookie
  tagged : Option (String × String)
  attributionCalled : Bool
  passthrough : Bool
  htmlClassified : Bool

/-- Lines 68-76: the asset path that is fetched; none models the TypeError
thrown at line 72 when abResult.variant is undefined. -/
def fetchedPathFor (tests : TestTable) (req : Request) (cookies : CookieMap)
    (u : ℚ) : Option String :=
  match resolveABTest tests req.pathname cookies u with
  | some a =>
      match a.variantOpt with
      | some v => some v.path
      | none => none
  | none => some req.pathname

/-- Line 82 path classification on the ORIGINAL request pathname. -/
def isHtmlPathOf (p : String) : Bool :=
  strEndsWith p "/" || strEndsWith p ".html" || p == ""

/-- Lines 79-83: HTML when either the content-type or the path says so. -/
def classifyHtml (ct : Option String) (p : String) : Bool :=
  strContains (jsOr ct "") "text/html" || isHtmlPathOf p

/-- Line 86: the referral query parameter name. -/
def refVarOf (env : Env) : String := jsOr env.AFFWP_REF_VAR "ref"

/-- Line 87: url.searchParams.get(refVar), already percent-decoded. -/
def affiliateIdOf (env : Env) (req : Request) : Option String :=
  List.lookup (refVarOf env) req.query

/-- Line 88: the campaign query parameter, defaulted to the empty string. -/
def campaignOf (req : Request) : String := jsOr (List.lookup "campaign" req.query) ""

/-- Line 89: parseInt of env.AFFWP_COOKIE_DAYS (default 400), times 86400. -/
def maxAgeOf (env : Env) : Option Int :=
  (parseIntDec (jsOr env.AFFWP_COOKIE_DAYS "400")).map (fun d => d * 86400)

/-- Line 90: whether env.AFFWP_CREDIT_LAST (default true) equals true. -/
def creditLastOf (env : Env) : Bool := jsOr env.AFFWP_CREDIT_LAST "true" == "true"

/-- Line 120: creditLast || !existingAffiliate || !existingVisit. -/
def shouldTrackOf (env : Env) (cookies : CookieMap) : Bool :=
  creditLastOf env || !truthyS (lookupCookie cookies "affwp_affiliate_id") ||
    !truthyS (lookupCookie cookies "affwp_visit_id")

/-- isNew of an optional assignment: abResult && abResult.isNew (line 94). -/
def isNewOf (a : Option Assignment) : Bool :=
  match a with
  | some x => x.isNew
  | none => false

/-- Lines 106-112: the sticky-assignment Set-Cookie for a fresh draw.  The
inner none branches are unreachable here because a variant-less assignment
already threw at line 72. -/
def abCookieFor (needsABCookie : Bool) (abResult : Option Assignment) : List SetCookie :=
  if needsABCookie then
    match abResult with
    | some a =>
        match a.variantOpt with
        | some v => [⟨abCookiePfx ++ a.testKey, v.name, some abCookieMaxAge⟩]
        | none => []
    | none => []
  else []

/-- Lines 115-147: the affiliate tracking block.  Returns (attribution call
made, visit id, Set-Cookie directives in append order). -/
def affiliateBlock (env : Env) (cookies : CookieMap) (svc : Option SvcResp)
    (needsAffiliate : Bool) (affiliateId : Option String) (campaign : String) :
    Bool × Option Json × List SetCookie :=
  if needsAffiliate then
    if shouldTrackOf env cookies then
      let cv := createAffiliateVisit env svc
      let maxAge := maxAgeOf env
      (cv.1, cv.2,
        ⟨"affwp_affiliate_id", affiliateId.getD "", maxAge⟩ ::
          ((if campaign == "" then [] else
              [⟨"affwp_campaign", encodeURIComponent campaign, maxAge⟩]) ++
            (match cv.2 with
             | some j => [⟨"affwp_visit_id", jsToString j, maxAge⟩]
             | none => [])))
    else (false, none, [])
  else (false, none, [])

/-- Lines 150-168: the Clarity tag injected by HTMLRewriter, recorded as the
(testKey, variantName) pair. -/
def taggedFor (needsVariantTag : Bool) (abResult : Option Assignment) :
    Option (String × String) :=
  if needsVariantTag then
    match abResult with
    | some a => a.variantOpt.map (fun v => (a.testKey, v.name))
    | none => none
  else none

/-- Lines 78-170: everything after the cookie parse and the content fetch
succeeded — classification, the three post-processing booleans, the fast
path of line 99, and the cookie/tagging composition. -/
def workerCore (tests : TestTable) (req : Request) (env : Env)
    (assets : String → PageResponse) (svc : Option SvcResp) (u : ℚ)
    (cookies : CookieMap) (fp : String) : ServedResponse :=
  let abResult := resolveABTest tests req.pathname cookies u
  let page := assets fp
  let isHtml := classifyHtml page.contentType req.pathname
  let affiliateId := affiliateIdOf env req
  let campaign := campaignOf req
  let needsAffiliate := truthyS affiliateId && isHtml
  let needsABCookie := isNewOf abResult
  let needsVariantTag := abResult.isSome && isHtml
  if !needsAffiliate && !needsABCookie && !needsVariantTag then
    ⟨fp, page.status, page.contentType, page.body, [], none, false, true, isHtml⟩
  else
    let abCookies := abCookieFor needsABCookie abResult
    let tracked := affiliateBlock env cookies svc needsAffiliate affiliateId campaign
    let tagged := taggedFor needsVariantTag abResult
    ⟨fp, page.status, page.contentType, page.body,
      abCookies ++ tracked.2.2, tagged, tracked.1, false, isHtml⟩

/-- The fetch handler (lines 59-171).  assets is the env.ASSETS.fetch oracle
keyed by pathname, svc the attribution service oracle, u the Math.random
draw.  none models an uncaught exception (URIError from parseCookies, or
the TypeError of line 72). -/
def workerFetch (tests : TestTable) (req : Request) (env : Env)
    (assets : String → PageResponse) (svc : Option SvcResp) (u : ℚ) :
    Option ServedResponse :=
  match parseCookies req.cookieHeader with
  | none => none
  | some cookies =>
      match fetchedPathFor tests req cookies u with
      | none => none
      | some fp => some (workerCore tests req env assets svc u cookies fp)

/-! ## Concrete configurations and scenarios used by the claims -/

/-- A configuration whose weights sum to 400, not 100. -/
def cfgDouble : List Variant := [⟨"a", "/a", 200⟩, ⟨"b", "/b", 200⟩]

/-- A test table holding cfgDouble. -/
def testsDouble : TestTable := [("/e/", ⟨cfgDouble⟩)]

/-- A configuration whose weights sum to 0. -/
def cfgZero : List Variant := [⟨"x", "/x", 0⟩, ⟨"y", "/y", 0⟩]

/-- A test table holding cfgZero. -/
def testsZero : TestTable := [("/zero/", ⟨cfgZero⟩)]

/-- A test table holding an experiment with an empty variant list. -/
def testsEmptyVs : TestTable := [("/empty/", ⟨[]⟩)]

/-- The attribution service call result when the call is made and fails. -/
def svcFailed : Option SvcResp → Bool
  | none => true
  | some r => !respOk r || r.bodyJson.isNone

/-! ## Concrete scenarios used by the remaining witnesses -/

/-- A referral request: path /, query ref=7 and campaign=c, no cookies. -/
def reqRef : Request := ⟨"/", [("ref", "7"), ("campaign", "c")], ""⟩

/-- A fully configured environment. -/
def envFull : Env := ⟨some "https://p", some "k", some "t", none, none, none⟩

/-- An environment missing the public key. -/
def envNoKey : Env := ⟨some "https://p", none, some "t", none, none, none⟩

/-- An environment with every variable unset. -/
def envNone : Env := ⟨none, none, none, none, none, none⟩

/-- An asset store always answering an HTML page. -/
def assetsHtml : String → PageResponse := fun _ => ⟨200, some "text/html", "page"⟩

/-- An asset store always answering a stylesheet. -/
def assetsCss : String → PageResponse := fun _ => ⟨200, some "text/css", "css"⟩

/-- An asset store always answering plain text. -/
def assetsPlain : String → PageResponse := fun _ => ⟨200, some "text/plain", "x"⟩

/-- An attribution service answering HTTP 500. -/
def svc500 : Option SvcResp := some ⟨500, none⟩

/-- A stylesheet request with no referral and no cookies. -/
def reqCss : Request := ⟨"/style.css", [], ""⟩

/-- A request to the deployed experiment path with a referral id and the
variant-b sticky cookie. -/
def reqSticky : Request :=
  ⟨"/beginners-course/start/", [("ref", "5")], "ab_beginners-course-start=variant-b"⟩

/-- The sticky cookie jar of reqSticky. -/
def cookiesSticky : CookieMap := [("ab_beginners-course-start", "variant-b")]

/-! ## Properties of the weighted draw -/

/-- cumBefore at zero. -/
theorem cumBefore_zero (vs : List Variant) : cumBefore vs 0 = 0 := rfl

/-- cumBefore through a cons cell. -/
theorem cumBefore_cons (v : Variant) (vs : List Variant) (n : Nat) :
    cumBefore (v :: vs) (n + 1) = v.weight + cumBefore vs n := by
  simp [cumBefore]

/-- The index loop only returns indices at or above its start index. -/
theorem pickIdxLoop_ge (vs : List Variant) (rand acc : ℚ) (k m : Nat)
    (h : pickIdxLoop vs rand acc k = some m) : k ≤ m := by
  induction vs generalizing acc k with
  | nil => simp [pickIdxLoop] at h
  | cons v rest ih =>
      unfold pickIdxLoop at h
      by_cases hc : rand < acc + (v.weight : ℚ)
      · simp [hc] at h; omega
      · simp [hc] at h
        have := ih _ _ h
        omega

/-- Where the index loop lands: on the first variant whose cumulative weight
exceeds rand, characterized by the cumulative-weight interval. -/
theorem pickIdxLoop_eq_some_iff (vs : List Variant) (rand acc : ℚ) (k i : Nat)
    (hacc : acc ≤ rand) :
    pickIdxLoop vs rand acc k = some (k + i) ↔
      i < vs.length ∧ acc + (cumBefore vs i : ℚ) ≤ rand ∧
        rand < acc + (cumBefore vs (i + 1) : ℚ) := by
  induction vs generalizing acc k i with
  | nil => simp [pickIdxLoop]
  | cons v rest ih =>
      unfold pickIdxLoop
      by_cases hc : rand < acc + (v.weight : ℚ)
      · simp only [hc, if_true]
        constructor
        · intro h
          have hi : i = 0 := by
            have := Option.some.inj h
            omega
          subst hi
          refine ⟨by simp, by simpa [cumBefore_zero] using hacc, ?_⟩
          simpa [cumBefore_cons, cumBefore_zero] using hc
        · rintro ⟨hlen, hlo, _⟩
          have hi : i = 0 := by
            by_contra hne
            obtain ⟨j, rfl⟩ : ∃ j, i = j + 1 := ⟨i - 1, by omega⟩
            rw [cumBefore_cons] at hlo
            have : acc + (v.weight : ℚ) ≤ rand := by
              have hnn : (0 : ℚ) ≤ (cumBefore rest j : ℚ) := by positivity
              push_cast at hlo ⊢
              linarith
            linarith
          subst hi
          rfl
      · simp only [hc, if_false]
        have hacc2 : acc + (v.weight : ℚ) ≤ rand := le_of_not_lt hc
        cases i with
        | zero =>
            constructor
            · intro h
              have := pickIdxLoop_ge rest rand (acc + (v.weight : ℚ)) (k + 1) _ h
              omega
            · rintro ⟨-, -, hhi⟩
              rw [cumBefore_cons, cumBefore_zero] at hhi
              push_cast at hhi
              exact absurd (by linarith : rand < acc + (v.weight : ℚ)) hc
        | succ j =>
            have hk : k + (j + 1) = (k + 1) + j := by omega
            rw [hk, ih (acc + (v.weight : ℚ)) (k + 1) j hacc2]
            constructor
            · rintro ⟨hlen, hlo, hhi⟩
              refine ⟨by simpa using hlen, ?_, ?_⟩
              · rw [cumBefore_cons]; push_cast; linarith
              · rw [cumBefore_cons]; push_cast; linarith
            · rintro ⟨hlen, hlo, hhi⟩
              rw [cumBefore_cons] at hlo
              rw [cumBefore_cons] at hhi
              push_cast at hlo hhi
              exact ⟨by simpa using hlen, by linarith, by linarith⟩

/-- Sum of weights through a cons cell. -/
theorem sumOfWeights_cons (v : Variant) (vs : List Variant) :
    sumOfWeights (v :: vs) = v.weight + sumOfWeights vs := by
  simp [sumOfWeights]

/-- The index loop falls through exactly when rand is at or past the total
cumulative weight. -/
theorem pickIdxLoop_eq_none_iff (vs : List Variant) (rand acc : ℚ)
    (k : Nat) (hacc : acc ≤ rand) :
    pickIdxLoop vs rand acc k = none ↔ acc + (sumOfWeights vs : ℚ) ≤ rand := by
  induction vs generalizing acc k with
  | nil => simpa [pickIdxLoop, sumOfWeights] using hacc
  | cons v rest ih =>
      unfold pickIdxLoop
      by_cases hc : rand < acc + (v.weight : ℚ)
      · simp only [hc, if_true]
        constructor
        · intro h; cases h
        · intro h
          have hnn : (0 : ℚ) ≤ (sumOfWeights rest : ℚ) := by positivity
          have hcast : (sumOfWeights (v :: rest) : ℚ)
              = (v.weight : ℚ) + (sumOfWeights rest : ℚ) := by
            rw [sumOfWeights_cons]; push_cast; ring
          rw [hcast] at h
          linarith
      · simp only [hc, if_false]
        have hacc2 : acc + (v.weight : ℚ) ≤ rand := le_of_not_lt hc
        rw [ih (acc + (v.weight : ℚ)) (k + 1) hacc2]
        have hcast : (sumOfWeights (v :: rest) : ℚ)
            = (v.weight : ℚ) + (sumOfWeights rest : ℚ) := by
          rw [sumOfWeights_cons]; push_cast; ring
        rw [hcast]
        constructor <;> intro h <;> linarith

/-- Shifting the start index shifts the returned index. -/
theorem pickIdxLoop_shift (vs : List Variant) (rand acc : ℚ) (k : Nat) :
    pickIdxLoop vs rand acc k = (pickIdxLoop vs rand acc 0).map (k + ·) := by
  induction vs generalizing acc k with
  | nil => simp [pickIdxLoop]
  | cons v rest ih =>
      unfold pickIdxLoop
      by_cases hc : rand < acc + (v.weight : ℚ)
      · simp [hc]
      · simp only [hc, if_false]
        rw [ih (acc + (v.weight : ℚ)) (k + 1), ih (acc + (v.weight : ℚ)) 1,
          Option.map_map]
        congr 1
        funext m
        simp [Function.comp]
        omega

/-- The variant loop is the index loop followed by indexing. -/
theorem pickLoop_eq_idx (vs : List Variant) (rand acc : ℚ) :
    pickLoop vs rand acc = (pickIdxLoop vs rand acc 0).bind (fun m => vs.get? m) := by
  induction vs generalizing acc with
  | nil => simp [pickLoop, pickIdxLoop]
  | cons v rest ih =>
      unfold pickLoop pickIdxLoop
      by_cases hc : rand < acc + (v.weight : ℚ)
      · simp [hc]
      · simp only [hc, if_false]
        rw [ih (acc + (v.weight : ℚ)), pickIdxLoop_shift rest rand _ 1]
        cases pickIdxLoop rest rand (acc + (v.weight : ℚ)) 0 with
        | none => simp
        | some m => simp [Nat.add_comm 1 m]

/-- The index loop only returns indices of existing elements. -/
theorem pickIdxLoop_lt (vs : List Variant) (rand acc : ℚ) (k m : Nat)
    (h : pickIdxLoop vs rand acc k = some m) : m < k + vs.length := by
  induction vs generalizing acc k with
  | nil => simp [pickIdxLoop] at h
  | cons v rest ih =>
      unfold pickIdxLoop at h
      by_cases hc : rand < acc + (v.weight : ℚ)
      · simp [hc] at h; simp; omega
      · simp [hc] at h
        have := ih _ _ h
        simp
        omega

/-- pickVariant is pickIdx followed by indexing (the fallback of line 219
picks index length - 1, which on the empty list is JS undefined = none). -/
theorem pickVariant_eq_idx (vs : List Variant) (rand : ℚ) :
    pickVariant vs rand = (pickIdx vs rand).bind (fun m => vs.get? m) := by
  unfold pickVariant pickIdx
  rw [pickLoop_eq_idx]
  cases h : pickIdxLoop vs rand 0 0 with
  | some m =>
      have hm : m < vs.length := by simpa using pickIdxLoop_lt vs rand 0 0 m h
      have hv : vs[m]? = some vs[m] := List.getElem?_eq_getElem hm
      simp [hv]
  | none =>
      cases vs with
      | nil => simp
      | cons v rest => simp

/-! ## Claim C1: the fresh weighted draw -/

/-- Claim C1 is false as stated: for the experiment cfgDouble (weights
summing to W = 400) and the concrete draw u = 3/4, the code (which scales
the uniform draw by the constant 100, line 209) returns variant a, while
the algorithm of the claim (a uniform draw in [0, W)) returns variant b;
variant b has weight/W = 1/2 yet the code never selects it. -/
theorem c1_counterexample :
    resolveABTest testsDouble "/e/" [] (3 / 4)
        = some ⟨"e", some ⟨"a", "/a", 200⟩, true⟩
    ∧ specFreshDraw cfgDouble (3 / 4) = some ⟨"b", "/b", 200⟩ := by
  constructor
  · have h1 : resolveABTest testsDouble "/e/" [] (3 / 4)
        = some ⟨"e", pickVariant cfgDouble ((3 / 4 : ℚ) * 100), true⟩ := rfl
    rw [h1]
    norm_num [pickVariant, pickLoop, cfgDouble]
  · norm_num [specFreshDraw, sumOfWeights, cfgDouble, pickLoop]

/-- Claim C1 amended: the fresh draw scales the uniform value by the fixed
constant 100, not by the weight sum; the draw selects index i exactly when
u * 100 falls in the cumulative-weight interval [cumBefore i, cumBefore
(i+1)), an interval of length weight i — so each variant is selected with
probability weight/W only when the weights sum to exactly 100 (W = 100),
which is the configuration discipline the source documents. -/
theorem c1_amended (vs : List Variant) (u : ℚ) (i : Nat)
    (h0 : 0 ≤ u) (h1 : u < 1) (hW : sumOfWeights vs = 100) :
    (pickIdx vs (u * 100) = some i ↔
      i < vs.length ∧ (cumBefore vs i : ℚ) ≤ u * 100 ∧
        u * 100 < (cumBefore vs (i + 1) : ℚ))
    ∧ pickVariant vs (u * 100) = (pickIdx vs (u * 100)).bind (fun m => vs.get? m) := by
  have hacc : (0 : ℚ) ≤ u * 100 := by positivity
  have hlt : u * 100 < (sumOfWeights vs : ℚ) := by
    rw [hW]; push_cast; linarith
  have hnone : pickIdxLoop vs (u * 100) 0 0 ≠ none := by
    intro hcontra
    rw [pickIdxLoop_eq_none_iff vs (u * 100) 0 0 hacc] at hcontra
    linarith
  obtain ⟨m, hm⟩ := Option.ne_none_iff_exists'.mp hnone
  constructor
  · have hiff := pickIdxLoop_eq_some_iff vs (u * 100) 0 0 i hacc
    simp only [Nat.zero_add, zero_add] at hiff
    unfold pickIdx
    rw [hm]
    rw [hm] at hiff
    exact hiff
  · exact pickVariant_eq_idx vs (u * 100)

/-- Witness for c1_amended at the deployed 50/50 configuration, u = 0, i = 0. -/
theorem c1_witness :
    (0 : ℚ) ≤ 0 ∧ (0 : ℚ) < 1 ∧ sumOfWeights startVariants = 100 ∧
    ((pickIdx startVariants ((0 : ℚ) * 100) = some 0 ↔
        0 < startVariants.length ∧ (cumBefore startVariants 0 : ℚ) ≤ (0 : ℚ) * 100 ∧
          (0 : ℚ) * 100 < (cumBefore startVariants (0 + 1) : ℚ))
      ∧ pickVariant startVariants ((0 : ℚ) * 100)
          = (pickIdx startVariants ((0 : ℚ) * 100)).bind (fun m => startVariants.get? m)) :=
  ⟨le_refl 0, zero_lt_one, rfl, c1_amended startVariants 0 0 (le_refl 0) zero_lt_one rfl⟩

/-! ## Claim C3: zero-sum and empty experiments are not inert -/

/-- Claim C3 is false as stated: for the zero-weight-sum experiment cfgZero
and the concrete draw u = 1/2, resolution is not a no-op — it selects the
last variant y as a fresh assignment rather than returning none. -/
theorem c3_counterexample :
    resolveABTest testsZero "/zero/" [] (1 / 2)
      = some ⟨"zero", some ⟨"y", "/y", 0⟩, true⟩ := by
  have h1 : resolveABTest testsZero "/zero/" [] (1 / 2)
      = some ⟨"zero", pickVariant cfgZero ((1 / 2 : ℚ) * 100), true⟩ := rfl
  rw [h1]
  norm_num [pickVariant, pickLoop, cfgZero]

/-- Claim C3 amended: such experiments are not inert.  With a non-empty
variant list of weight sum 0, every fresh draw falls through the loop and
selects the LAST variant (isNew = true); with an empty variant list,
resolution yields an assignment whose variant is undefined, and serving the
request then throws (the worker returns no response) instead of no-op. -/
theorem c3_amended :
    (∀ (vs : List Variant) (u : ℚ), vs ≠ [] → sumOfWeights vs = 0 → 0 ≤ u →
        pickVariant vs (u * 100) = vs.getLast?)
    ∧ (∀ (req : Request) (env : Env) (assets : String → PageResponse)
        (svc : Option SvcResp) (u : ℚ) (cookies : CookieMap),
        parseCookies req.cookieHeader = some cookies →
        normalizeTestPath req.pathname = "/empty/" →
        resolveABTest testsEmptyVs req.pathname cookies u = some ⟨"empty", none, true⟩
          ∧ workerFetch testsEmptyVs req env assets svc u = none) := by
  constructor
  · intro vs u hne hsum hu
    have hacc : (0 : ℚ) ≤ u * 100 := by positivity
    have hnone : pickIdxLoop vs (u * 100) 0 0 = none := by
      rw [pickIdxLoop_eq_none_iff vs (u * 100) 0 0 hacc, hsum]
      push_cast
      linarith
    have hl : pickLoop vs (u * 100) 0 = none := by
      rw [pickLoop_eq_idx, hnone]
      rfl
    unfold pickVariant
    rw [hl, List.getLast?_eq_getElem?]
    simp [List.get?_eq_getElem?]
  · intro req env assets svc u cookies hparse hnorm
    have hres : resolveABTest testsEmptyVs req.pathname cookies u
        = some ⟨"empty", none, true⟩ := by
      have hkey : deriveTestKey "/empty/" = "empty" := rfl
      unfold resolveABTest
      rw [hnorm]
      simp only [hkey]
      cases hl : lookupCookie cookies (abCookiePfx ++ "empty") with
      | none => rfl
      | some s =>
          cases hs : s == "" with
          | true => simp only [hs]; rfl
          | false => simp only [hs]; rfl
    have hfp : fetchedPathFor testsEmptyVs req cookies u = none := by
      unfold fetchedPathFor
      rw [hres]
    refine ⟨hres, ?_⟩
    unfold workerFetch
    rw [hparse]
    simp only [hfp]

/-- Witness for c3_amended: the zero-sum configuration at u = 0, and the
empty-variants experiment on a concrete request. -/
theorem c3_witness :
    (cfgZero ≠ [] ∧ sumOfWeights cfgZero = 0 ∧ (0 : ℚ) ≤ 0 ∧
      pickVariant cfgZero ((0 : ℚ) * 100) = cfgZero.getLast?)
    ∧ (parseCookies "" = some [] ∧ normalizeTestPath "/empty/" = "/empty/" ∧
        resolveABTest testsEmptyVs "/empty/" [] 0 = some ⟨"empty", none, true⟩
        ∧ workerFetch testsEmptyVs ⟨"/empty/", [], ""⟩
            ⟨none, none, none, none, none, none⟩
            (fun _ => ⟨200, none, ""⟩) none 0 = none) :=
  ⟨⟨by decide, rfl, le_refl 0,
      c3_amended.1 cfgZero 0 (by decide) rfl (le_refl 0)⟩,
    ⟨rfl, rfl,
      (c3_amended.2 ⟨"/empty/", [], ""⟩ ⟨none, none, none, none, none, none⟩
        (fun _ => ⟨200, none, ""⟩) none 0 [] rfl rfl).1,
      (c3_amended.2 ⟨"/empty/", [], ""⟩ ⟨none, none, none, none, none, none⟩
        (fun _ => ⟨200, none, ""⟩) none 0 [] rfl rfl).2⟩⟩

/-- parsePair throws exactly when pairOk fails. -/
theorem parsePair_eq_none_iff (p : List Char) : parsePair p = none ↔ pairOk p = false := by
  unfold parsePair pairOk
  cases h : splitOnChar '=' (trimChars p) with
  | nil => simp
  | cons nameCs rest =>
      by_cases hn : nameCs.isEmpty
      · simp [hn]
      · cases hd : decodeURIComponent (String.mk (trimChars (List.intercalate ['='] rest))) <;>
          simp [hn, hd]

/-- parsePairs succeeds iff every piece is processable. -/
theorem parsePairs_isSome_iff (ps : List (List Char)) (m : CookieMap) :
    (parsePairs ps m).isSome ↔ ∀ p ∈ ps, pairOk p = true := by
  induction ps generalizing m with
  | nil => simp [parsePairs]
  | cons p rest ih =>
      unfold parsePairs
      cases hp : parsePair p with
      | none =>
          have := (parsePair_eq_none_iff p).mp hp
          simp [this]
      | some o =>
          have hok : pairOk p = true := by
            rcases h : pairOk p with _ | _
            · exact absurd ((parsePair_eq_none_iff p).mpr h) (by simp [hp])
            · rfl
          cases o with
          | none => simpa [hok] using ih m
          | some kv => simpa [hok] using ih (insertCookie m kv.1 kv.2)

/-! ## Claim C4: cookie parsing is not failure-free -/

/-- Claim C4 is false as stated: on the concrete header a=% the value % is
not a valid percent-encoding, decodeURIComponent throws a URIError, and
parseCookies propagates it (returns no mapping) instead of being total. -/
theorem c4_counterexample : parseCookies "a=%" = none := rfl

/-- Claim C4 amended: parseCookies is pure and splits on ';', trims, splits
each pair on the first '=', URL-decodes the value and ignores entries
lacking a name, and empty input yields the empty mapping — but it is not
failure-free: it succeeds exactly when every named entry's value is a valid
percent-encoding (pairOk), and throws a URIError otherwise. -/
theorem c4_amended (s : String) :
    ((parseCookies s).isSome ↔ ∀ p ∈ splitOnChar ';' s.toList, pairOk p = true)
    ∧ parseCookies "" = some [] := by
  constructor
  · unfold parseCookies
    cases hs : s == "" with
    | true =>
        have hs2 : s = "" := by simpa using hs
        subst hs2
        simp only [if_pos rfl]
        constructor
        · intro _
          decide
        · intro _
          rfl
    | false =>
        simp only [hs, Bool.false_eq_true, if_false]
        exact parsePairs_isSome_iff (splitOnChar ';' s.toList) []
  · rfl

/-- Witness for c4_amended at a successfully decoded concrete header. -/
theorem c4_witness :
    ((parseCookies "x=1%412").isSome ↔
      ∀ p ∈ splitOnChar ';' "x=1%412".toList, pairOk p = true)
    ∧ parseCookies "" = some [] :=
  c4_amended "x=1%412"

/-! ## Helper lemmas about the orchestrator -/

/-- Opening the fetch handler when the parse and the fetch both succeed. -/
theorem workerFetch_eq_some (tests : TestTable) (req : Request) (env : Env)
    (assets : String → PageResponse) (svc : Option SvcResp) (u : ℚ)
    (cookies : CookieMap) (fp : String)
    (hparse : parseCookies req.cookieHeader = some cookies)
    (hfp : fetchedPathFor tests req cookies u = some fp) :
    workerFetch tests req env assets svc u
      = some (workerCore tests req env assets svc u cookies fp) := by
  unfold workerFetch
  rw [hparse]
  simp only [hfp]

/-- An ab_-prefixed cookie name differs from any name not starting in ab_. -/
theorem append_ab_ne (k t : String) (ht : t.data.take 3 ≠ ['a', 'b', '_']) :
    abCookiePfx ++ k ≠ t := by
  intro h
  apply ht
  rw [← h, String.data_append]
  have habc : (abCookiePfx).data = ['a', 'b', '_'] := rfl
  rw [habc]
  rfl

/-- Every cookie appended by the sticky-assignment step has an ab_ name. -/
theorem abCookieFor_mem (b : Bool) (a : Option Assignment) (c : SetCookie)
    (hc : c ∈ abCookieFor b a) : ∃ k, c.name = abCookiePfx ++ k := by
  unfold abCookieFor at hc
  cases b with
  | false => simp at hc
  | true =>
      cases a with
      | none => simp at hc
      | some x =>
          cases hv : x.variantOpt with
          | none => simp [hv] at hc
          | some v =>
              simp [hv] at hc
              exact ⟨x.testKey, by rw [hc]⟩

/-- Every cookie appended by the affiliate tracking block is one of the
three affwp_ cookies. -/
theorem affiliateBlock_mem (env : Env) (cookies : CookieMap) (svc : Option SvcResp)
    (na : Bool) (aid : Option String) (camp : String) (c : SetCookie)
    (hc : c ∈ (affiliateBlock env cookies svc na aid camp).2.2) :
    c.name = "affwp_affiliate_id" ∨ c.name = "affwp_campaign" ∨
      c.name = "affwp_visit_id" := by
  unfold affiliateBlock at hc
  cases na with
  | false => simp at hc
  | true =>
      cases hst : shouldTrackOf env cookies with
      | false => simp [hst] at hc
      | true =>
          simp only [hst, if_pos, if_true] at hc
          rcases List.mem_cons.mp hc with rfl | hc2
          · left; rfl
          · rcases List.mem_append.mp hc2 with h | h
            · cases hcmp : camp == "" with
              | true => simp [hcmp] at h
              | false =>
                  simp [hcmp] at h
                  right; left; rw [h]
            · cases hcv : (createAffiliateVisit env svc).2 with
              | none => simp [hcv] at h
              | some j =>
                  simp [hcv] at h
                  right; right; rw [h]

/-- The affiliate tracking block is inert when tracking is off. -/
theorem affiliateBlock_skip (env : Env) (cookies : CookieMap) (svc : Option SvcResp)
    (na : Bool) (aid : Option String) (camp : String)
    (h : na = false ∨ shouldTrackOf env cookies = false) :
    affiliateBlock env cookies svc na aid camp = (false, none, []) := by
  unfold affiliateBlock
  rcases h with rfl | hst
  · rfl
  · cases na with
    | false => rfl
    | true => simp [hst]

/-! ## Claim C2: sticky assignment -/

/-- Claim C2: on any request whose path normalizes to the deployed
experiment's key, a sticky cookie naming a still-configured variant makes
resolution return exactly that variant with isNew = false for every draw
value, and the response sets no ab_ cookie; a cookie naming an absent
variant falls through to a fresh draw (isNew = true). -/
theorem c2_sticky_reuse (req : Request) (env : Env) (assets : String → PageResponse)
    (svc : Option SvcResp) (u : ℚ) (cookies : CookieMap) (s : String)
    (hparse : parseCookies req.cookieHeader = some cookies)
    (hnorm : normalizeTestPath req.pathname = "/beginners-course/start/")
    (hcookie : lookupCookie cookies "ab_beginners-course-start" = some s) :
    (∀ v, List.find? (fun x => x.name == s) startVariants = some v →
        resolveABTest abTests req.pathname cookies u
            = some ⟨"beginners-course-start", some v, false⟩
        ∧ ∀ r, workerFetch abTests req env assets svc u = some r →
            ∀ c ∈ r.setCookies, strStartsWith c.name "ab_" = false)
    ∧ (List.find? (fun x => x.name == s) startVariants = none →
        resolveABTest abTests req.pathname cookies u
            = some ⟨"beginners-course-start", pickVariant startVariants (u * 100), true⟩) := by
  have hkey : deriveTestKey "/beginners-course/start/" = "beginners-course-start" := rfl
  have hlook : List.lookup "/beginners-course/start/" abTests
      = some ⟨startVariants⟩ := rfl
  have hpfx : abCookiePfx ++ "beginners-course-start" = "ab_beginners-course-start" := rfl
  constructor
  · intro v hfind
    have hs_ne : (s == "") = false := by
      cases hb : s == "" with
      | false => rfl
      | true =>
          have hs2 : s = "" := by simpa using hb
          subst hs2
          have hce : List.find? (fun x => x.name == ("" : String)) startVariants
              = none := rfl
          rw [hce] at hfind
          cases hfind
    have hres : resolveABTest abTests req.pathname cookies u
        = some ⟨"beginners-course-start", some v, false⟩ := by
      unfold resolveABTest
      rw [hnorm]
      simp only [hlook, hkey, hpfx]
      rw [hcookie]
      simp only [hs_ne, Bool.false_eq_true, if_false]
      rw [hfind]
    refine ⟨hres, ?_⟩
    intro r hr c hc
    have hfp : fetchedPathFor abTests req cookies u = some v.path := by
      unfold fetchedPathFor
      rw [hres]
    rw [workerFetch_eq_some abTests req env assets svc u cookies v.path hparse hfp] at hr
    have hrr : r = workerCore abTests req env assets svc u cookies v.path :=
      (Option.some.inj hr).symm
    subst hrr
    unfold workerCore at hc
    rw [hres] at hc
    simp only [isNewOf, Option.isSome_some, Bool.true_and] at hc
    by_cases hfast :
        (!(truthyS (affiliateIdOf env req)
            && classifyHtml (assets v.path).contentType req.pathname)
          && !false
          && !(classifyHtml (assets v.path).contentType req.pathname)) = true
    · rw [if_pos hfast] at hc
      simp at hc
    · rw [if_neg hfast] at hc
      simp only [abCookieFor, if_false, Bool.false_eq_true] at hc
      rcases List.mem_append.mp hc with h | h
      · simp at h
      · rcases affiliateBlock_mem env cookies svc _ _ _ c h with hn | hn | hn <;>
          rw [hn] <;> decide
  · intro hfind
    unfold resolveABTest
    rw [hnorm]
    simp only [hlook, hkey, hpfx]
    rw [hcookie]
    cases hb : s == "" with
    | true => simp only [hb, if_pos]
    | false =>
        simp only [hb, Bool.false_eq_true, if_false]
        rw [hfind]

/-- Witness for c2_sticky_reuse: the variant-b sticky cookie on the deployed
experiment path. -/
theorem c2_witness :
    (parseCookies "ab_beginners-course-start=variant-b"
        = some [("ab_beginners-course-start", "variant-b")]
      ∧ normalizeTestPath "/beginners-course/start/" = "/beginners-course/start/"
      ∧ lookupCookie [("ab_beginners-course-start", "variant-b")]
          "ab_beginners-course-start" = some "variant-b")
    ∧ ((∀ v, List.find? (fun x => x.name == "variant-b") startVariants = some v →
        resolveABTest abTests "/beginners-course/start/"
            [("ab_beginners-course-start", "variant-b")] 0
            = some ⟨"beginners-course-start", some v, false⟩
        ∧ ∀ r, workerFetch abTests ⟨"/beginners-course/start/", [],
              "ab_beginners-course-start=variant-b"⟩
            ⟨none, none, none, none, none, none⟩ (fun _ => ⟨200, none, "page"⟩) none 0
              = some r →
            ∀ c ∈ r.setCookies, strStartsWith c.name "ab_" = false)
      ∧ (List.find? (fun x => x.name == "variant-b") startVariants = none →
        resolveABTest abTests "/beginners-course/start/"
            [("ab_beginners-course-start", "variant-b")] 0
            = some ⟨"beginners-course-start", pickVariant startVariants (0 * 100), true⟩)) :=
  ⟨⟨rfl, rfl, rfl⟩,
    c2_sticky_reuse
      ⟨"/beginners-course/start/", [], "ab_beginners-course-start=variant-b"⟩
      ⟨none, none, none, none, none, none⟩ (fun _ => ⟨200, none, "page"⟩) none 0
      [("ab_beginners-course-start", "variant-b")] "variant-b" rfl rfl rfl⟩

/-! ## More orchestrator helpers -/

/-- Inverting a successful fetch: the parse succeeded, some asset path was
fetched, and the result is workerCore at that path. -/
theorem workerFetch_inv (tests : TestTable) (req : Request) (env : Env)
    (assets : String → PageResponse) (svc : Option SvcResp) (u : ℚ)
    (cookies : CookieMap) (r : ServedResponse)
    (hparse : parseCookies req.cookieHeader = some cookies)
    (hr : workerFetch tests req env assets svc u = some r) :
    ∃ fp, fetchedPathFor tests req cookies u = some fp
      ∧ r = workerCore tests req env assets svc u cookies fp := by
  cases hfp : fetchedPathFor tests req cookies u with
  | none =>
      have hnone : workerFetch tests req env assets svc u = none := by
        unfold workerFetch
        rw [hparse]
        simp only [hfp]
      rw [hnone] at hr
      cases hr
  | some fp =>
      have heq := workerFetch_eq_some tests req env assets svc u cookies fp hparse hfp
      rw [heq] at hr
      exact ⟨fp, rfl, (Option.some.inj hr).symm⟩

/-- When the credit-first policy suppresses tracking, workerCore makes no
attribution call and appends only ab_ cookies. -/
theorem workerCore_track_skip (tests : TestTable) (req : Request) (env : Env)
    (assets : String → PageResponse) (svc : Option SvcResp) (u : ℚ)
    (cookies : CookieMap) (fp : String)
    (hst : shouldTrackOf env cookies = false) :
    (workerCore tests req env assets svc u cookies fp).attributionCalled = false
    ∧ ∀ c ∈ (workerCore tests req env assets svc u cookies fp).setCookies,
        ∃ k, c.name = abCookiePfx ++ k := by
  unfold workerCore
  simp only [affiliateBlock_skip env cookies svc _ _ _ (Or.inr hst)]
  split
  · exact ⟨rfl, by simp⟩
  · refine ⟨rfl, ?_⟩
    intro c hc
    simp only [List.append_nil] at hc
    exact abCookieFor_mem _ _ c hc

/-- A failed service interaction yields a made call and no visit id. -/
theorem createVisit_failed (env : Env) (svc : Option SvcResp)
    (hcfg : svcConfigured env = true) (hfail : svcFailed svc = true) :
    createAffiliateVisit env svc = (true, none) := by
  unfold createAffiliateVisit
  rw [hcfg]
  cases svc with
  | none => rfl
  | some resp =>
      cases hok : respOk resp with
      | false => simp [hok]
      | true =>
          have hbody : resp.bodyJson = none := by
            simp only [svcFailed, hok] at hfail
            simpa [Option.isNone_iff_eq_none] using hfail
          simp [hok, hbody]

/-- Missing configuration yields no call and no visit id. -/
theorem createVisit_skip (env : Env) (svc : Option SvcResp)
    (hcfg : svcConfigured env = false) : createAffiliateVisit env svc = (false, none) := by
  unfold createAffiliateVisit
  simp [hcfg]

/-- The affiliate tracking block when tracking fires but no visit id was
obtained: cookies for the affiliate id and (only if non-empty) the
campaign, and nothing else. -/
theorem affiliateBlock_novisit (env : Env) (cookies : CookieMap) (svc : Option SvcResp)
    (aid : Option String) (camp : String) (b : Bool)
    (hst : shouldTrackOf env cookies = true)
    (hcv : createAffiliateVisit env svc = (b, none)) :
    affiliateBlock env cookies svc true aid camp
      = (b, none, ⟨"affwp_affiliate_id", aid.getD "", maxAgeOf env⟩ ::
          (if camp == "" then [] else
            [⟨"affwp_campaign", encodeURIComponent camp, maxAgeOf env⟩])) := by
  unfold affiliateBlock
  simp [hst, hcv]

/-! ## Claim C5: credit-first policy -/

/-- Claim C5: with creditLast resolved false and non-empty affiliate-id and
visit-id cookies already present, the attribution service is never invoked
and no affwp_ Set-Cookie is written, whatever referral id the request
carries.  (The theorem needs no HTML hypothesis: the conclusion holds for
every request, in particular the HTML ones the claim quantifies over.) -/
theorem c5_credit_first (req : Request) (env : Env) (assets : String → PageResponse)
    (svc : Option SvcResp) (u : ℚ) (cookies : CookieMap) (aid av vv : String)
    (r : ServedResponse)
    (hparse : parseCookies req.cookieHeader = some cookies)
    (haid : affiliateIdOf env req = some aid) (haid2 : aid ≠ "")
    (hav : lookupCookie cookies "affwp_affiliate_id" = some av) (hav2 : av ≠ "")
    (hvv : lookupCookie cookies "affwp_visit_id" = some vv) (hvv2 : vv ≠ "")
    (hcl : creditLastOf env = false)
    (hr : workerFetch abTests req env assets svc u = some r) :
    r.attributionCalled = false
    ∧ ∀ c ∈ r.setCookies, c.name ≠ "affwp_affiliate_id"
        ∧ c.name ≠ "affwp_campaign" ∧ c.name ≠ "affwp_visit_id" := by
  have hst : shouldTrackOf env cookies = false := by
    unfold shouldTrackOf
    rw [hcl, hav, hvv]
    simp [truthyS, hav2, hvv2]
  obtain ⟨fp, hfp, rfl⟩ := workerFetch_inv abTests req env assets svc u cookies r hparse hr
  obtain ⟨hcall, hnames⟩ :=
    workerCore_track_skip abTests req env assets svc u cookies fp hst
  refine ⟨hcall, ?_⟩
  intro c hc
  obtain ⟨k, hk⟩ := hnames c hc
  rw [hk]
  exact ⟨append_ab_ne k _ (by decide), append_ab_ne k _ (by decide),
    append_ab_ne k _ (by decide)⟩

/-- Witness for c5_credit_first: existing cookies 5 and 99, a request with
a different referral id 7, creditLast false. -/
theorem c5_witness :
    (parseCookies "affwp_affiliate_id=5; affwp_visit_id=99"
        = some [("affwp_visit_id", "99"), ("affwp_affiliate_id", "5")]
      ∧ affiliateIdOf ⟨none, none, none, none, none, some "false"⟩
          ⟨"/", [("ref", "7")], "affwp_affiliate_id=5; affwp_visit_id=99"⟩ = some "7"
      ∧ lookupCookie [("affwp_visit_id", "99"), ("affwp_affiliate_id", "5")]
          "affwp_affiliate_id" = some "5"
      ∧ lookupCookie [("affwp_visit_id", "99"), ("affwp_affiliate_id", "5")]
          "affwp_visit_id" = some "99"
      ∧ creditLastOf ⟨none, none, none, none, none, some "false"⟩ = false
      ∧ workerFetch abTests ⟨"/", [("ref", "7")], "affwp_affiliate_id=5; affwp_visit_id=99"⟩
          ⟨none, none, none, none, none, some "false"⟩
          (fun _ => ⟨200, some "text/html", "page"⟩) none 0
          = some (workerCore abTests ⟨"/", [("ref", "7")], "affwp_affiliate_id=5; affwp_visit_id=99"⟩
              ⟨none, none, none, none, none, some "false"⟩
              (fun _ => ⟨200, some "text/html", "page"⟩) none 0
              [("affwp_visit_id", "99"), ("affwp_affiliate_id", "5")] "/"))
    ∧ ((workerCore abTests ⟨"/", [("ref", "7")], "affwp_affiliate_id=5; affwp_visit_id=99"⟩
          ⟨none, none, none, none, none, some "false"⟩
          (fun _ => ⟨200, some "text/html", "page"⟩) none 0
          [("affwp_visit_id", "99"), ("affwp_affiliate_id", "5")] "/").attributionCalled = false
      ∧ ∀ c ∈ (workerCore abTests ⟨"/", [("ref", "7")], "affwp_affiliate_id=5; affwp_visit_id=99"⟩
          ⟨none, none, none, none, none, some "false"⟩
          (fun _ => ⟨200, some "text/html", "page"⟩) none 0
          [("affwp_visit_id", "99"), ("affwp_affiliate_id", "5")] "/").setCookies,
          c.name ≠ "affwp_affiliate_id" ∧ c.name ≠ "affwp_campaign"
            ∧ c.name ≠ "affwp_visit_id") :=
  ⟨⟨rfl, rfl, rfl, rfl, rfl, rfl⟩,
    c5_credit_first ⟨"/", [("ref", "7")], "affwp_affiliate_id=5; affwp_visit_id=99"⟩
      ⟨none, none, none, none, none, some "false"⟩
      (fun _ => ⟨200, some "text/html", "page"⟩) none 0
      [("affwp_visit_id", "99"), ("affwp_affiliate_id", "5")] "7" "5" "99"
      (workerCore abTests ⟨"/", [("ref", "7")], "affwp_affiliate_id=5; affwp_visit_id=99"⟩
        ⟨none, none, none, none, none, some "false"⟩
        (fun _ => ⟨200, some "text/html", "page"⟩) none 0
        [("affwp_visit_id", "99"), ("affwp_affiliate_id", "5")] "/")
      rfl rfl (by decide) rfl (by decide) rfl (by decide) rfl rfl⟩

/-! ## Claim C6: attribution failure is non-fatal -/

/-- Claim C6: on a qualifying HTML request with a referral id, when the
attribution call is made and fails (transport error, non-2xx status, or
unparseable success body), the response still carries the affiliate-id
cookie (and the campaign cookie exactly when the campaign is non-empty),
carries no visit-id cookie, and serves the fetched page's status and body
with no error surfaced. -/
theorem c6_attribution_failure (req : Request) (env : Env)
    (assets : String → PageResponse) (svc : Option SvcResp) (u : ℚ)
    (cookies : CookieMap) (aid fp : String) (r : ServedResponse)
    (hparse : parseCookies req.cookieHeader = some cookies)
    (haid : affiliateIdOf env req = some aid) (haid2 : aid ≠ "")
    (hfp : fetchedPathFor abTests req cookies u = some fp)
    (hhtml : classifyHtml (assets fp).contentType req.pathname = true)
    (hst : shouldTrackOf env cookies = true)
    (hcfg : svcConfigured env = true)
    (hfail : svcFailed svc = true)
    (hr : workerFetch abTests req env assets svc u = some r) :
    r.attributionCalled = true
    ∧ (∃ c ∈ r.setCookies, c.name = "affwp_affiliate_id" ∧ c.value = aid)
    ∧ (campaignOf req ≠ "" → ∃ c ∈ r.setCookies, c.name = "affwp_campaign")
    ∧ (campaignOf req = "" → ∀ c ∈ r.setCookies, c.name ≠ "affwp_campaign")
    ∧ (∀ c ∈ r.setCookies, c.name ≠ "affwp_visit_id")
    ∧ r.status = (assets fp).status ∧ r.body = (assets fp).body := by
  obtain ⟨fp2, hfp2, rfl⟩ := workerFetch_inv abTests req env assets svc u cookies r hparse hr
  rw [hfp2] at hfp
  have hfpe := Option.some.inj hfp
  subst hfpe
  have hcv := createVisit_failed env svc hcfg hfail
  have hblock := affiliateBlock_novisit env cookies svc (some aid)
    (campaignOf req) true hst hcv
  have htr2 : truthyS (some aid) = true := by
    simp [truthyS, haid2]
  unfold workerCore
  simp only [haid, htr2, hhtml, Bool.and_self, Bool.not_true, Bool.false_and,
    Bool.false_eq_true, if_false, hblock, Option.getD_some]
  refine ⟨?_, ?_, ?_, ?_, ?_, ?_, ?_⟩
  · trivial
  · exact ⟨⟨"affwp_affiliate_id", aid, maxAgeOf env⟩,
      List.mem_append_right _ (List.mem_cons_self _ _), rfl, rfl⟩
  · intro hcmp
    have hb : (campaignOf req == "") = false := by simpa using hcmp
    simp only [hb, Bool.false_eq_true, if_false]
    exact ⟨⟨"affwp_campaign", encodeURIComponent (campaignOf req), maxAgeOf env⟩,
      List.mem_append_right _ (List.mem_cons_of_mem _ (List.mem_cons_self _ _)), rfl⟩
  · intro hcmp c hc
    have hb : (campaignOf req == "") = true := by simpa using hcmp
    simp only [hb, if_true] at hc
    rcases List.mem_append.mp hc with h | h
    · obtain ⟨k, hk⟩ := abCookieFor_mem _ _ c h
      rw [hk]
      exact append_ab_ne k _ (by decide)
    · rcases List.mem_cons.mp h with rfl | h2
      · simp
      · simp at h2
  · intro c hc
    rcases List.mem_append.mp hc with h | h
    · obtain ⟨k, hk⟩ := abCookieFor_mem _ _ c h
      rw [hk]
      exact append_ab_ne k _ (by decide)
    · rcases List.mem_cons.mp h with rfl | h2
      · simp
      · cases hb : campaignOf req == "" with
        | true => simp [hb] at h2
        | false =>
            simp only [hb, Bool.false_eq_true, if_false] at h2
            rcases List.mem_singleton.mp h2 with rfl
            simp
  · trivial
  · trivial

/-! ## Claim C10: missing configuration -/

/-- Claim C10: when tracking fires but the service base URL, public key or
token is absent, no outbound call is made and no visit id exists, yet the
response still carries the affiliate-id cookie (and the campaign cookie if
the campaign is non-empty) and no visit-id cookie. -/
theorem c10_missing_config (req : Request) (env : Env)
    (assets : String → PageResponse) (svc : Option SvcResp) (u : ℚ)
    (cookies : CookieMap) (aid fp : String) (r : ServedResponse)
    (hparse : parseCookies req.cookieHeader = some cookies)
    (haid : affiliateIdOf env req = some aid) (haid2 : aid ≠ "")
    (hfp : fetchedPathFor abTests req cookies u = some fp)
    (hhtml : classifyHtml (assets fp).contentType req.pathname = true)
    (hst : shouldTrackOf env cookies = true)
    (hcfg : svcConfigured env = false)
    (hr : workerFetch abTests req env assets svc u = some r) :
    r.attributionCalled = false
    ∧ (∃ c ∈ r.setCookies, c.name = "affwp_affiliate_id" ∧ c.value = aid)
    ∧ (campaignOf req ≠ "" → ∃ c ∈ r.setCookies, c.name = "affwp_campaign")
    ∧ (∀ c ∈ r.setCookies, c.name ≠ "affwp_visit_id") := by
  obtain ⟨fp2, hfp2, rfl⟩ := workerFetch_inv abTests req env assets svc u cookies r hparse hr
  rw [hfp2] at hfp
  have hfpe := Option.some.inj hfp
  subst hfpe
  have hcv := createVisit_skip env svc hcfg
  have hblock := affiliateBlock_novisit env cookies svc (some aid)
    (campaignOf req) false hst hcv
  have htr2 : truthyS (some aid) = true := by
    simp [truthyS, haid2]
  unfold workerCore
  simp only [haid, htr2, hhtml, Bool.and_self, Bool.not_true, Bool.false_and,
    Bool.false_eq_true, if_false, hblock, Option.getD_some]
  refine ⟨?_, ?_, ?_, ?_⟩
  · trivial
  · exact ⟨⟨"affwp_affiliate_id", aid, maxAgeOf env⟩,
      List.mem_append_right _ (List.mem_cons_self _ _), rfl, rfl⟩
  · intro hcmp
    have hb : (campaignOf req == "") = false := by simpa using hcmp
    simp only [hb, Bool.false_eq_true, if_false]
    exact ⟨⟨"affwp_campaign", encodeURIComponent (campaignOf req), maxAgeOf env⟩,
      List.mem_append_right _ (List.mem_cons_of_mem _ (List.mem_cons_self _ _)), rfl⟩
  · intro c hc
    rcases List.mem_append.mp hc with h | h
    · obtain ⟨k, hk⟩ := abCookieFor_mem _ _ c h
      rw [hk]
      exact append_ab_ne k _ (by decide)
    · rcases List.mem_cons.mp h with rfl | h2
      · simp
      · cases hb : campaignOf req == "" with
        | true => simp [hb] at h2
        | false =>
            simp only [hb, Bool.false_eq_true, if_false] at h2
            rcases List.mem_singleton.mp h2 with rfl
            simp

/-! ## Claim C7: the untouched fast path -/

/-- Claim C7: when no referral id applies to HTML content, no fresh
assignment was drawn, and no experiment applies to HTML content, the
orchestrator returns the fetched response unmodified: same status,
content-type and body, no Set-Cookie headers, no tag, no attribution call,
and the early no-clone return (passthrough) is taken. -/
theorem c7_fast_path (tests : TestTable) (req : Request) (env : Env)
    (assets : String → PageResponse) (svc : Option SvcResp) (u : ℚ)
    (cookies : CookieMap) (fp : String)
    (hparse : parseCookies req.cookieHeader = some cookies)
    (hfp : fetchedPathFor tests req cookies u = some fp)
    (h1 : (truthyS (affiliateIdOf env req)
        && classifyHtml (assets fp).contentType req.pathname) = false)
    (h2 : isNewOf (resolveABTest tests req.pathname cookies u) = false)
    (h3 : ((resolveABTest tests req.pathname cookies u).isSome
        && classifyHtml (assets fp).contentType req.pathname) = false) :
    workerFetch tests req env assets svc u
      = some ⟨fp, (assets fp).status, (assets fp).contentType, (assets fp).body,
          [], none, false, true,
          classifyHtml (assets fp).contentType req.pathname⟩ := by
  rw [workerFetch_eq_some tests req env assets svc u cookies fp hparse hfp]
  unfold workerCore
  simp only [h1, h2, h3, Bool.not_false, Bool.and_self, if_true]

/-! ## Claim C9: HTML classification uses the inbound path -/

/-- Claim C9: the HTML classification always evaluates the original inbound
request path — whenever that path ends in a slash or .html or is empty, the
served response is classified as HTML (whatever content type the fetched
variant carries), the variant tag is injected whenever an experiment
resolved, and the affiliate-id cookie is written whenever a referral id is
present and tracking fires. -/
theorem c9_html_by_path (tests : TestTable) (req : Request) (env : Env)
    (assets : String → PageResponse) (svc : Option SvcResp) (u : ℚ)
    (cookies : CookieMap) (r : ServedResponse)
    (hparse : parseCookies req.cookieHeader = some cookies)
    (hpath : isHtmlPathOf req.pathname = true)
    (hr : workerFetch tests req env assets svc u = some r) :
    r.htmlClassified = true
    ∧ (∀ a v, resolveABTest tests req.pathname cookies u = some a →
        a.variantOpt = some v → r.tagged = some (a.testKey, v.name))
    ∧ (∀ aid, affiliateIdOf env req = some aid → aid ≠ "" →
        shouldTrackOf env cookies = true →
        ∃ c ∈ r.setCookies, c.name = "affwp_affiliate_id" ∧ c.value = aid) := by
  obtain ⟨fp, hfp, rfl⟩ := workerFetch_inv tests req env assets svc u cookies r hparse hr
  have hhtml : classifyHtml (assets fp).contentType req.pathname = true := by
    unfold classifyHtml
    rw [hpath]
    simp
  refine ⟨?_, ?_, ?_⟩
  · unfold workerCore
    simp only [hhtml]
    split
    · rfl
    · rfl
  · intro a v hres hv
    unfold workerCore
    simp only [hres, hhtml, Option.isSome_some, Bool.and_true, Bool.not_true,
      Bool.and_false, Bool.false_eq_true, if_false, taggedFor, if_true, hv,
      Option.map_some']
  · intro aid haid haid2 hst
    have htr2 : truthyS (some aid) = true := by
      simp [truthyS, haid2]
    unfold workerCore
    simp only [haid, htr2, hhtml, Bool.and_self, Bool.not_true, Bool.false_and,
      Bool.false_eq_true, if_false]
    unfold affiliateBlock
    simp only [hst, if_true, Option.getD_some]
    exact ⟨⟨"affwp_affiliate_id", aid, maxAgeOf env⟩,
      List.mem_append_right _ (List.mem_cons_self _ _), rfl, rfl⟩

/-! ## Claim C8: visit-id extraction -/

/-- Claim C8 is false as stated: in the parsed success body with fields
visit_id = 0 and id = 7, the field visit_id is present, yet extraction
returns 7 (the id field) because the source uses JS truthiness (||), not
presence — a present-but-falsy visit_id is skipped. -/
theorem c8_counterexample :
    lookupLast [("visit_id", Json.num 0), ("id", Json.num 7)] "visit_id"
        = some (Json.num 0)
    ∧ extractVisitId (Json.obj [("visit_id", Json.num 0), ("id", Json.num 7)])
        = some (Json.num 7)
    ∧ (some (Json.num 7) : Option Json) ≠ some (Json.num 0) := by
  refine ⟨rfl, rfl, ?_⟩
  intro h
  have h2 := Option.some.inj h
  injection h2 with h3
  exact (by norm_num : (7 : ℚ) ≠ 0) h3

/-- Claim C8 amended: the visit id is read from the field visit_id if that
field is present AND truthy, else from the field id if present AND truthy,
and is absent when both are absent or falsy (0, empty string, false, null). -/
theorem extractVisitId_obj (fields : List (String × Json)) :
    extractVisitId (Json.obj fields)
      = (match lookupLast fields "visit_id" with
        | some v =>
            if jsonTruthy v then some v
            else
              match lookupLast fields "id" with
              | some w => if jsonTruthy w then some w else none
              | none => none
        | none =>
            match lookupLast fields "id" with
            | some w => if jsonTruthy w then some w else none
            | none => none) := rfl

theorem c8_amended (fields : List (String × Json)) :
    (∀ v, lookupLast fields "visit_id" = some v → jsonTruthy v = true →
        extractVisitId (Json.obj fields) = some v)
    ∧ (∀ w, (∀ v, lookupLast fields "visit_id" = some v → jsonTruthy v = false) →
        lookupLast fields "id" = some w → jsonTruthy w = true →
        extractVisitId (Json.obj fields) = some w)
    ∧ ((∀ v, lookupLast fields "visit_id" = some v → jsonTruthy v = false) →
        (∀ w, lookupLast fields "id" = some w → jsonTruthy w = false) →
        extractVisitId (Json.obj fields) = none) := by
  refine ⟨?_, ?_, ?_⟩
  · intro v hv htr
    rw [extractVisitId_obj, hv]
    simp [htr]
  · intro w hfal hw htw
    rw [extractVisitId_obj]
    cases hv : lookupLast fields "visit_id" with
    | none =>
        rw [hw]
        simp [htw]
    | some v =>
        have hf := hfal v hv
        simp [hf, hw, htw]
  · intro hfal hfid
    rw [extractVisitId_obj]
    cases hv : lookupLast fields "visit_id" with
    | none =>
        cases hw : lookupLast fields "id" with
        | none => rfl
        | some w => simp [hw, hfid w hw]
    | some v =>
        have hf := hfal v hv
        cases hw : lookupLast fields "id" with
        | none => simp [hf, hw]
        | some w => simp [hf, hw, hfid w hw]

/-- Witness for c8_amended: a truthy visit_id field is returned as-is. -/
theorem c8_witness :
    lookupLast [("visit_id", Json.num 5)] "visit_id" = some (Json.num 5)
    ∧ jsonTruthy (Json.num 5) = true
    ∧ extractVisitId (Json.obj [("visit_id", Json.num 5)]) = some (Json.num 5) :=
  ⟨rfl, rfl, (c8_amended [("visit_id", Json.num 5)]).1 (Json.num 5) rfl rfl⟩

/-- Witness for c6_attribution_failure: service answers 500 on a referral
request with campaign c. -/
theorem c6_witness :
    (parseCookies reqRef.cookieHeader = some []
      ∧ affiliateIdOf envFull reqRef = some "7" ∧ "7" ≠ ""
      ∧ fetchedPathFor abTests reqRef [] 0 = some "/"
      ∧ classifyHtml (assetsHtml "/").contentType reqRef.pathname = true
      ∧ shouldTrackOf envFull [] = true
      ∧ svcConfigured envFull = true
      ∧ svcFailed svc500 = true
      ∧ workerFetch abTests reqRef envFull assetsHtml svc500 0
          = some (workerCore abTests reqRef envFull assetsHtml svc500 0 [] "/"))
    ∧ ((workerCore abTests reqRef envFull assetsHtml svc500 0 [] "/").attributionCalled
          = true
      ∧ (∃ c ∈ (workerCore abTests reqRef envFull assetsHtml svc500 0 [] "/").setCookies,
          c.name = "affwp_affiliate_id" ∧ c.value = "7")
      ∧ (campaignOf reqRef ≠ "" →
          ∃ c ∈ (workerCore abTests reqRef envFull assetsHtml svc500 0 [] "/").setCookies,
            c.name = "affwp_campaign")
      ∧ (campaignOf reqRef = "" →
          ∀ c ∈ (workerCore abTests reqRef envFull assetsHtml svc500 0 [] "/").setCookies,
            c.name ≠ "affwp_campaign")
      ∧ (∀ c ∈ (workerCore abTests reqRef envFull assetsHtml svc500 0 [] "/").setCookies,
          c.name ≠ "affwp_visit_id")
      ∧ (workerCore abTests reqRef envFull assetsHtml svc500 0 [] "/").status
          = (assetsHtml "/").status
      ∧ (workerCore abTests reqRef envFull assetsHtml svc500 0 [] "/").body
          = (assetsHtml "/").body) :=
  ⟨⟨rfl, rfl, by decide, rfl, rfl, rfl, rfl, rfl, rfl⟩,
    c6_attribution_failure reqRef envFull assetsHtml svc500 0 [] "7" "/"
      (workerCore abTests reqRef envFull assetsHtml svc500 0 [] "/")
      rfl rfl (by decide) rfl rfl rfl rfl rfl rfl⟩

/-- Witness for c10_missing_config: public key absent on a referral request. -/
theorem c10_witness :
    (parseCookies reqRef.cookieHeader = some []
      ∧ affiliateIdOf envNoKey reqRef = some "7" ∧ "7" ≠ ""
      ∧ fetchedPathFor abTests reqRef [] 0 = some "/"
      ∧ classifyHtml (assetsHtml "/").contentType reqRef.pathname = true
      ∧ shouldTrackOf envNoKey [] = true
      ∧ svcConfigured envNoKey = false
      ∧ workerFetch abTests reqRef envNoKey assetsHtml none 0
          = some (workerCore abTests reqRef envNoKey assetsHtml none 0 [] "/"))
    ∧ ((workerCore abTests reqRef envNoKey assetsHtml none 0 [] "/").attributionCalled
          = false
      ∧ (∃ c ∈ (workerCore abTests reqRef envNoKey assetsHtml none 0 [] "/").setCookies,
          c.name = "affwp_affiliate_id" ∧ c.value = "7")
      ∧ (campaignOf reqRef ≠ "" →
          ∃ c ∈ (workerCore abTests reqRef envNoKey assetsHtml none 0 [] "/").setCookies,
            c.name = "affwp_campaign")
      ∧ (∀ c ∈ (workerCore abTests reqRef envNoKey assetsHtml none 0 [] "/").setCookies,
          c.name ≠ "affwp_visit_id")) :=
  ⟨⟨rfl, rfl, by decide, rfl, rfl, rfl, rfl, rfl⟩,
    c10_missing_config reqRef envNoKey assetsHtml none 0 [] "7" "/"
      (workerCore abTests reqRef envNoKey assetsHtml none 0 [] "/")
      rfl rfl (by decide) rfl rfl rfl rfl rfl⟩

/-- Witness for c7_fast_path: a stylesheet request with no referral id. -/
theorem c7_witness :
    (parseCookies reqCss.cookieHeader = some []
      ∧ fetchedPathFor abTests reqCss [] 0 = some "/style.css"
      ∧ (truthyS (affiliateIdOf envNone reqCss)
          && classifyHtml (assetsCss "/style.css").contentType reqCss.pathname) = false
      ∧ isNewOf (resolveABTest abTests reqCss.pathname [] 0) = false
      ∧ ((resolveABTest abTests reqCss.pathname [] 0).isSome
          && classifyHtml (assetsCss "/style.css").contentType reqCss.pathname) = false)
    ∧ workerFetch abTests reqCss envNone assetsCss none 0
        = some ⟨"/style.css", (assetsCss "/style.css").status,
            (assetsCss "/style.css").contentType, (assetsCss "/style.css").body,
            [], none, false, true,
            classifyHtml (assetsCss "/style.css").contentType reqCss.pathname⟩ :=
  ⟨⟨rfl, rfl, rfl, rfl, rfl⟩,
    c7_fast_path abTests reqCss envNone assetsCss none 0 [] "/style.css"
      rfl rfl rfl rfl rfl⟩

/-- Witness for c9_html_by_path: the sticky variant-b request whose variant
content path satisfies no HTML path rule and whose response is text/plain. -/
theorem c9_witness :
    (parseCookies reqSticky.cookieHeader = some cookiesSticky
      ∧ isHtmlPathOf reqSticky.pathname = true
      ∧ workerFetch abTests reqSticky envNone assetsPlain none 0
          = some (workerCore abTests reqSticky envNone assetsPlain none 0
              cookiesSticky "/beginners-course/start/variant-b"))
    ∧ ((workerCore abTests reqSticky envNone assetsPlain none 0
          cookiesSticky "/beginners-course/start/variant-b").htmlClassified = true
      ∧ (∀ a v, resolveABTest abTests reqSticky.pathname cookiesSticky 0 = some a →
          a.variantOpt = some v →
          (workerCore abTests reqSticky envNone assetsPlain none 0
            cookiesSticky "/beginners-course/start/variant-b").tagged
              = some (a.testKey, v.name))
      ∧ (∀ aid, affiliateIdOf envNone reqSticky = some aid → aid ≠ "" →
          shouldTrackOf envNone cookiesSticky = true →
          ∃ c ∈ (workerCore abTests reqSticky envNone assetsPlain none 0
              cookiesSticky "/beginners-course/start/variant-b").setCookies,
            c.name = "affwp_affiliate_id" ∧ c.value = aid)) :=
  ⟨⟨rfl, rfl, rfl⟩,
    c9_html_by_path abTests reqSticky envNone assetsPlain none 0 cookiesSticky
      (workerCore abTests reqSticky envNone assetsPlain none 0
        cookiesSticky "/beginners-course/start/variant-b")
      rfl rfl rfl⟩
